import Mathlib

/-!
Verification development for the twitch-cutter pipeline (src/main.py).

The Python program is shallowly embedded: pure logic is translated into
executable Lean definitions, and every I/O boundary (filesystem `stat`,
HTTP calls, JSON parsing of request bodies, clock) is passed in explicitly
as data or as an oracle function, so that each definition mirrors the
control flow of the corresponding Python function line by line.

Conventions used throughout:
* file paths are modelled as `String`s; `canon : String → String` models
  `Path(...).resolve()` / `str(p.resolve())` canonicalisation;
* machine integers are `Nat` / `Int` (Python ints are unbounded, so no
  wrap-around modelling is needed);
* Python exceptions are modelled with `Except`: `.error` is a raised
  exception propagating out of the modelled function.
-/

/-- JSON values as produced by `json.loads`.  An object is a field list
(parsed Python dicts have unique keys). -/
inductive JVal where
  | obj (fields : List (String × JVal))
  | arr (items : List JVal)
  | str (s : String)
  | num (n : Int)
  | jbool (b : Bool)
  | jnull
deriving Repr

/-- `d.get(key)` on a parsed JSON object (Python `dict.get`, default `None`). -/
def jget (fields : List (String × JVal)) (key : String) : Option JVal :=
  match fields.find? (fun kv => kv.1 == key) with
  | some kv => some kv.2
  | none => none

/-- Python `v == s` between an optional JSON value and a string literal:
true exactly when the value is that string. -/
def jIsStr (v : Option JVal) (s : String) : Bool :=
  match v with
  | some (.str t) => t == s
  | _ => false

/-- `pre` is a leading run of `l` (structurally recursive so that
concrete instances evaluate definitionally). -/
def isPrefixChars : List Char → List Char → Bool
  | [], _ => true
  | _ :: _, [] => false
  | a :: as, b :: bs => a == b && isPrefixChars as bs

/-- Python `needle in hay` substring test on character lists. -/
def containsSub : List Char → List Char → Bool
  | hay, needle =>
    isPrefixChars needle hay ||
      match hay with
      | [] => false
      | _ :: rest => containsSub rest needle

/-- Python `s.strip()`: drop leading and trailing whitespace. -/
def pyStrip (s : String) : String :=
  String.mk
    (((s.toList.dropWhile Char.isWhitespace).reverse.dropWhile
      Char.isWhitespace).reverse)

/-- `s[:n]` / reading `n` bytes off the front of the body. -/
def strTake (s : String) (n : Nat) : String := String.mk (s.toList.take n)

/-- Python `s[n:]`. -/
def strDrop (s : String) (n : Nat) : String := String.mk (s.toList.drop n)

/-- Python `s.startswith(pre)`. -/
def strStartsWith (s pre : String) : Bool := isPrefixChars pre.toList s.toList

/-- Python `s.lower()` (ASCII case folding suffices for the extension
comparisons the program performs). -/
def strLower (s : String) : String := String.mk (s.toList.map Char.toLower)

/-- Digit run of a Python integer literal after the first digit:
digits optionally separated by single underscores (`int("1_0") = 10`). -/
def pyDigitsGo (acc : Nat) : List Char → Option Nat
  | [] => some acc
  | '_' :: c :: rest =>
    if c.isDigit then pyDigitsGo (acc * 10 + (c.toNat - 48)) rest else none
  | c :: rest =>
    if c.isDigit then pyDigitsGo (acc * 10 + (c.toNat - 48)) rest else none

/-- Digit run of a Python integer literal (must start with a digit). -/
def pyDigits : List Char → Option Nat
  | [] => none
  | c :: rest => if c.isDigit then pyDigitsGo (c.toNat - 48) rest else none

/-- Python `int(s)` on a decimal string: strips surrounding whitespace,
allows one optional sign, then digits; `none` models `ValueError`. -/
def pyInt (s : String) : Option Int :=
  match (pyStrip s).toList with
  | '+' :: rest => (pyDigits rest).map (fun n => (n : Int))
  | '-' :: rest => (pyDigits rest).map (fun n => -(n : Int))
  | rest => (pyDigits rest).map (fun n => (n : Int))

/-- Split a character list at `/` separators. -/
def pathSegsGo : List Char → List Char → List (List Char)
  | [], acc => [acc.reverse]
  | '/' :: rest, acc => acc.reverse :: pathSegsGo rest []
  | c :: rest, acc => pathSegsGo rest (c :: acc)

/-- The `/`-separated components of a path string. -/
def pathSegments (p : String) : List String :=
  (pathSegsGo p.toList []).map String.mk

/-- `pathlib.Path(p).name`: the last nonempty `/`-separated component. -/
def pathName (p : String) : String :=
  match ((pathSegments p).filter (fun s => s ≠ "")).getLast? with
  | some n => n
  | none => ""

/-- Index of the last `.` in a character list, if any. -/
def lastDotIdx (cs : List Char) : Option Nat :=
  match cs.reverse.findIdx? (fun c => c = '.') with
  | none => none
  | some j => some (cs.length - 1 - j)

/-- `pathlib.Path(p).suffix`: the final component's last extension,
including the dot; empty when the last dot is leading or trailing. -/
def pySuffix (p : String) : String :=
  let cs := (pathName p).toList
  match lastDotIdx cs with
  | some i => if 0 < i ∧ i < cs.length - 1 then String.mk (cs.drop i) else ""
  | none => ""

/-- `Path(p).suffix.lower()` as used by the candidate filters. -/
def suffixLower (p : String) : String := strLower (pySuffix p)

/-- Join path components back with `/`. -/
def joinSegs : List String → String
  | [] => ""
  | [a] => a
  | a :: rest => a ++ "/" ++ joinSegs rest

/-- `pathlib.Path(p).parent` for the absolute paths this model works with. -/
def parentDir (p : String) : String :=
  joinSegs ((pathSegments p).dropLast)

/-- The configuration fields of `Settings` (main.py lines 51-103) that the
modelled components read.  Credential/upload-only fields are omitted. -/
structure Settings where
  webhookPath : String
  webhookToken : String
  watchDir : String
  vodExtensions : List String
  pollIntervalSec : Nat
  stableForSec : Nat
  minVodSizeMb : Nat
  rewriteFrom : String
  rewriteTo : String
  opusWaitTimeoutSec : Nat
  opusPollIntervalSec : Nat
  runOnce : Bool
deriving Repr

/-- One file of the modelled filesystem snapshot: its canonical absolute
path and the `stat` data the program reads (`st_size`, `st_mtime`). -/
structure FileEntry where
  path : String
  size : Nat
  mtime : Int
deriving Repr, DecidableEq

/-- `p.exists() and p.is_file()` over a snapshot: look the path up among
the regular files. -/
def lookupFile (fs : List FileEntry) (p : String) : Option FileEntry :=
  fs.find? (fun f => f.path == p)

/-- Insert `a` into a list sorted by `key` descending, before the first
element whose key does not exceed `a`'s (so equal keys keep first-come
order, as in Python's stable `sorted`). -/
def orderedInsertDesc (key : FileEntry → Int) (a : FileEntry) :
    List FileEntry → List FileEntry
  | [] => [a]
  | b :: l => if key b ≤ key a then a :: b :: l else b :: orderedInsertDesc key a l

/-- Python `sorted(l, key=key, reverse=True)`: the stable descending sort
(stability makes the result of any stable algorithm identical, so
insertion sort models CPython's timsort exactly). -/
def sortByDesc (key : FileEntry → Int) : List FileEntry → List FileEntry
  | [] => []
  | a :: l => orderedInsertDesc key a (sortByDesc key l)

/-- `MIN_VOD_SIZE_MB` converted to bytes (main.py line 357). -/
def minBytes (st : Settings) : Nat := st.minVodSizeMb * 1024 * 1024

/-- `list_vod_candidates` (main.py lines 339-346): all files of the watch
tree whose lowercased suffix is in the allow-list, sorted by modification
time, newest first.  `fs` is the snapshot of regular files under
`watch_dir`, in directory-iteration order. -/
def list_vod_candidates (st : Settings) (fs : List FileEntry) : List FileEntry :=
  sortByDesc (fun f => f.mtime)
    (fs.filter (fun f => suffixLower f.path ∈ st.vodExtensions))

/-- The argument of `time.sleep` in `is_file_stable` (main.py line 351):
`max(1, stable_for_sec // 3)` with Python floor division. -/
def samplingInterval (stableForSec : Nat) : Nat := max 1 (stableForSec / 3)

/-- `is_file_stable` (main.py lines 349-353).  `stat1`/`stat2` are the two
`path.stat().st_size` samples, taken `samplingInterval` seconds apart;
`.error` models the `FileNotFoundError` raised by `stat` when the file
has disappeared, which the function does not catch. -/
def is_file_stable (stat1 stat2 : Except Unit Nat) : Except Unit Bool := do
  let size1 ← stat1
  let size2 ← stat2
  pure (size1 == size2)

/-- What one poll cycle of `wait_for_finished_vod` observes: the clock
value `time.time()`, the files under the watch directory, and for each
path the two size samples `is_file_stable` would take on it. -/
structure PollCycle where
  now : Int
  fs : List FileEntry
  stat1 : String → Except Unit Nat
  stat2 : String → Except Unit Nat

/-- The inner `for p in candidates` loop of `wait_for_finished_vod`
(main.py lines 367-378): skip candidates that are already processed, too
small, or too young; otherwise run the stability check.  `.ok (some p)`
models `return p`; `.ok none` models falling through the loop; `.error`
models a `FileNotFoundError` escaping from `is_file_stable`. -/
def scanCandidates (st : Settings) (seen : List String) (canon : String → String)
    (cyc : PollCycle) : List FileEntry → Except Unit (Option FileEntry)
  | [] => .ok none
  | p :: rest =>
    if canon p.path ∈ seen then scanCandidates st seen canon cyc rest
    else if p.size < minBytes st then scanCandidates st seen canon cyc rest
    else if cyc.now - p.mtime < (st.stableForSec : Int) then
      scanCandidates st seen canon cyc rest
    else
      match is_file_stable (cyc.stat1 p.path) (cyc.stat2 p.path) with
      | .error e => .error e
      | .ok true => .ok (some p)
      | .ok false => scanCandidates st seen canon cyc rest

/-- `wait_for_finished_vod` (main.py lines 356-380): snapshot `seen` from
`processed`, then loop over poll cycles until a cycle's scan returns a
file (sleeping `poll_interval_sec` between cycles).  `cycles k` is what
cycle `k` observes; `fuel` bounds how many cycles the model unrolls
(`none` = still looping after `fuel` cycles). -/
def wait_for_finished_vod (st : Settings) (processed : List String)
    (canon : String → String) (cycles : Nat → PollCycle) :
    Nat → Nat → Option (Except Unit FileEntry)
  | 0, _ => none
  | fuel + 1, k =>
    let cyc := cycles k
    match scanCandidates st processed canon cyc (list_vod_candidates st cyc.fs) with
    | .error e => some (.error e)
    | .ok (some p) => some (.ok p)
    | .ok none => wait_for_finished_vod st processed canon cycles fuel (k + 1)

/-- Errors that can end `OpusClient.wait_exportable_clips`: the
`TimeoutError` of line 255, or an HTTP error raised by
`raise_for_status` on a poll. -/
inductive WaitErr where
  | timeout
  | http (msg : String)
deriving Repr, DecidableEq

/-- The `while True` polling loop of `OpusClient.wait_exportable_clips`
(main.py lines 234-262).  `polls n` is the parsed `data` list of poll
number `n` (`n` starts at 1, matching `poll_no`), or the HTTP error that
poll raised; `elapsedAt n` is `time.time() - started` as observed right
after poll `n` returned an empty list.  The accumulator `sleeps` records
every `time.sleep` argument.  `none` = loop still running after `fuel`
polls. -/
def waitClipsGo (timeoutSec intervalSec : Nat) (polls : Nat → Except String (List JVal))
    (elapsedAt : Nat → Nat) :
    Nat → Nat → List Nat → Option (Except WaitErr (List JVal) × List Nat)
  | 0, _, _ => none
  | fuel + 1, pollNo, sleeps =>
    match polls pollNo with
    | .error e => some (.error (.http e), sleeps)
    | .ok clips =>
      if 0 < clips.length then some (.ok clips, sleeps)
      else if timeoutSec < elapsedAt pollNo then some (.error .timeout, sleeps)
      else waitClipsGo timeoutSec intervalSec polls elapsedAt fuel (pollNo + 1)
        (sleeps ++ [intervalSec])

/-- `wait_exportable_clips` entry point: `poll_no` starts at 0 and is
incremented before each poll, so the first poll is number 1. -/
def wait_exportable_clips (st : Settings) (polls : Nat → Except String (List JVal))
    (elapsedAt : Nat → Nat) (fuel : Nat) :
    Option (Except WaitErr (List JVal) × List Nat) :=
  waitClipsGo st.opusWaitTimeoutSec st.opusPollIntervalSec polls elapsedAt fuel 1 []

/-- The network/boundary calls `run_pipeline_for_vod` can make, in the
order the stages issue them. -/
inductive NetCall where
  | publish
  | submitClipJob
  | awaitClips
  | downloadClips
  | uploadClip
deriving Repr, DecidableEq

/-- The environment one `run_pipeline_for_vod` invocation runs against:
the outcome each I/O boundary would produce if called.  `fExists` is
`vod_path.exists()`; `canon` is `str(vod_path.resolve())`; the remaining
fields are the results of `publish_vod`, `create_clip_project`,
`wait_exportable_clips`, `download_clips` and `YouTubeUploader.upload`
(per 0-based clip index); `.error` models a raised exception. -/
structure PipeEnv where
  fExists : String → Bool
  canon : String → String
  publish : Except String String
  createProject : Except String String
  awaitClips : Except String (List JVal)
  downloadClips : Except String (List String)
  upload : Nat → Except String String

/-- Outcome of one `run_pipeline_for_vod` invocation: the returned value
or raised exception, the `processed["processed_files"]` list afterwards,
every `save_processed` write performed (the full list written), and the
boundary calls made. -/
structure PipeResult where
  result : Except String Unit
  processed : List String
  saves : List (List String)
  calls : List NetCall
deriving Repr

/-- The `for idx, file_path in enumerate(downloaded_files)` upload loop of
`run_pipeline_for_vod` (main.py lines 549-553): uploads in order, the
first raised error aborting the rest.  Returns the upload calls made. -/
def uploadAll (upload : Nat → Except String String) :
    Nat → List String → Except String Unit × List NetCall
  | _, [] => (.ok (), [])
  | idx, _ :: rest =>
    match upload idx with
    | .error e => (.error e, [.uploadClip])
    | .ok _ =>
      let (r, cs) := uploadAll upload (idx + 1) rest
      (r, .uploadClip :: cs)

/-- `run_pipeline_for_vod` (main.py lines 524-558): existence check,
benign skip when the canonical path is already processed, then
publish → submit → await → download → upload, and on success append the
canonical path to `processed` and `save_processed` the new state.  Every
stage failure propagates immediately with no state mutation. -/
def run_pipeline_for_vod (env : PipeEnv) (processed : List String)
    (vodPath : String) : PipeResult :=
  if env.fExists vodPath = false then
    ⟨.error "VOD file not found", processed, [], []⟩
  else if env.canon vodPath ∈ processed then
    ⟨.ok (), processed, [], []⟩
  else
    match env.publish with
    | .error e => ⟨.error e, processed, [], [.publish]⟩
    | .ok _ =>
      match env.createProject with
      | .error e => ⟨.error e, processed, [], [.publish, .submitClipJob]⟩
      | .ok _ =>
        match env.awaitClips with
        | .error e => ⟨.error e, processed, [], [.publish, .submitClipJob, .awaitClips]⟩
        | .ok _ =>
          match env.downloadClips with
          | .error e =>
            ⟨.error e, processed, [],
              [.publish, .submitClipJob, .awaitClips, .downloadClips]⟩
          | .ok files =>
            let (ur, ucs) := uploadAll env.upload 1 files
            let base := [.publish, .submitClipJob, .awaitClips, .downloadClips] ++ ucs
            match ur with
            | .error e => ⟨.error e, processed, [], base⟩
            | .ok _ =>
              let newProcessed := processed ++ [env.canon vodPath]
              ⟨.ok (), newProcessed, [newProcessed], base⟩

/-- `_rewrite_source_path` (main.py lines 561-566): when both rewrite
ends are configured and the raw path starts with the `from` half, swap
the halves, then canonicalise (`Path(rewritten).resolve()`). -/
def rewrite_source_path (st : Settings) (canon : String → String)
    (raw : String) : String :=
  let rewritten :=
    if st.rewriteFrom ≠ "" ∧ st.rewriteTo ≠ "" ∧
        strStartsWith raw st.rewriteFrom = true
    then st.rewriteTo ++ strDrop raw st.rewriteFrom.length
    else raw
  canon rewritten

/-- `_largest_media_in_dir` (main.py lines 569-578): among the snapshot's
files directly inside `dir` with an allowed extension, the largest
(stable descending sort by size, so ties keep listing order). -/
def largest_media_in_dir (fs : List FileEntry) (dir : String)
    (exts : List String) : Option String :=
  let candidates := fs.filter
    (fun f => parentDir f.path = dir ∧ suffixLower f.path ∈ exts)
  match sortByDesc (fun f => (f.size : Int)) candidates with
  | [] => none
  | c :: _ => some c.path

/-- Python `str(v)` for the JSON values `basename` can hold; composite
values are rendered only approximately (they never match a real path). -/
def jToStr : JVal → String
  | .str s => s
  | .num n => toString n
  | .jbool true => "True"
  | .jbool false => "False"
  | .jnull => "None"
  | .obj _ => "<dict>"
  | .arr _ => "<list>"

/-- `settings.watch_dir.rglob("*")` over the snapshot: the files whose
path lies strictly under the watch directory. -/
def rglobWatch (st : Settings) (fs : List FileEntry) : List FileEntry :=
  fs.filter (fun f => strStartsWith f.path (st.watchDir ++ "/"))

/-- `resolve_vod_from_webhook` (main.py lines 581-623).  `payload` is the
parsed JSON object's field list; `fs` is the filesystem snapshot (all
regular files, keyed by canonical path); `watchDirExists` is
`settings.watch_dir.exists()`.  Returns the selected VOD path, `none`
when nothing resolves. -/
def resolve_vod_from_webhook (st : Settings) (canon : String → String)
    (fs : List FileEntry) (watchDirExists : Bool)
    (payload : List (String × JVal)) (processed : List String) : Option String :=
  if jIsStr (jget payload "action") "end_download" = false then none
  else
    let data := match jget payload "data" with
      | some (.obj f) => f
      | _ => []
    let vod := match jget data "vod" with
      | some (.obj f) => f
      | _ => []
    let directPaths := (["path_downloaded_vod", "path_playlist"].filterMap
      (fun key => match jget vod key with
        | some (.str v) => if pyStrip v ≠ "" then some (pyStrip v) else none
        | _ => none))
    let fromDirect := directPaths.findSome? (fun raw =>
      let p := rewrite_source_path st canon raw
      if (lookupFile fs p).isSome then
        if suffixLower p ∈ st.vodExtensions then some p
        else if suffixLower p = ".m3u8" ∨ suffixLower p = ".txt" then
          largest_media_in_dir fs (parentDir p) st.vodExtensions
        else none
      else none)
    match fromDirect with
    | some p => some p
    | none =>
      let basename := pyStrip (jToStr ((jget vod "basename").getD (.str "")))
      if basename ≠ "" ∧ watchDirExists then
        let matching := (rglobWatch st fs).filter (fun p =>
          suffixLower p.path ∈ st.vodExtensions ∧
          containsSub (pathName p.path).toList basename.toList)
        if matching ≠ [] then
          let unseen := matching.filter (fun p => canon p.path ∉ processed)
          let use := if unseen ≠ [] then unseen else matching
          match sortByDesc (fun f => f.mtime) use with
          | [] => none
          | c :: _ => some c.path
        else none
      else none

/-- One inbound POST as `WebhookHandler.do_POST` sees it: request path,
the `X-Webhook-Token` header, the `Content-Length` header, and the raw
body available on the socket. -/
structure HttpReq where
  path : String
  token : Option String
  contentLength : Option String
  body : String
deriving Repr

/-- The raw bytes `do_POST` feeds to `json.loads` (main.py lines 656-660):
`int(headers.get("Content-Length", "0"))` with `ValueError` mapped to 0,
then read that many bytes if positive, else the literal bytes of an
empty JSON object. -/
def requestBody (req : HttpReq) : String :=
  let contentLength : Int := match pyInt (req.contentLength.getD "0") with
    | some n => n
    | none => 0
  if 0 < contentLength then strTake req.body contentLength.toNat
  else "\x7b\x7d"

/-- `WebhookHandler.do_POST` (main.py lines 638-671).  `settingsLoaded`
is the `WebhookHandler.settings` class attribute; `parse` models
`json.loads` on the decoded body.  `.ok (status, q)` is the HTTP status
sent back together with the payload enqueued on `event_queue` (if any);
`.error ()` models an exception escaping the handler (no response is
written and nothing is enqueued): this happens when the parsed payload
is not a dict, because `payload.get("action")` on line 668 raises
`AttributeError` before the enqueue. -/
def do_POST (settingsLoaded : Option Settings) (parse : String → Option JVal)
    (req : HttpReq) : Except Unit (Nat × Option JVal) :=
  match settingsLoaded with
  | none => .ok (500, none)
  | some s =>
    if req.path ≠ s.webhookPath then .ok (404, none)
    else if s.webhookToken ≠ "" ∧ req.token.getD "" ≠ s.webhookToken then
      .ok (401, none)
    else
      match parse (requestBody req) with
      | none => .ok (400, none)
      | some (.obj fields) => .ok (200, some (.obj fields))
      | some _ => .error ()

/-- The mutable state of the webhook-mode main loop (main.py lines
699-725): the shared `processed` dict, the `handled` counter, and the
pipeline invocations made so far (path and outcome of each). -/
structure LoopState where
  processed : List String
  handled : Nat
  runs : List (String × Except String Unit)
deriving Repr

/-- The `while True` body of webhook mode in `main` (main.py lines
703-725).  `events` is the finite prefix of `event_queue.get` outcomes
the model examines: `none` is a 60s `queue.Empty` heartbeat, `some p`
a dequeued payload (always a JSON object, since `do_POST` enqueues only
those).  `envs i` is the environment of the i-th pipeline invocation.
Returns the final state and whether the loop exited via `break`
(`handled += 1` runs only when `run_pipeline_for_vod` did not raise, so
a failed run leaves `handled` untouched). -/
def webhook_loop (st : Settings) (canon : String → String) (fs : List FileEntry)
    (watchDirExists : Bool) (envs : Nat → PipeEnv) :
    List (Option (List (String × JVal))) → LoopState → LoopState × Bool
  | [], acc => (acc, false)
  | none :: rest, acc => webhook_loop st canon fs watchDirExists envs rest acc
  | some payload :: rest, acc =>
    match resolve_vod_from_webhook st canon fs watchDirExists payload acc.processed with
    | none => webhook_loop st canon fs watchDirExists envs rest acc
    | some vodPath =>
      let r := run_pipeline_for_vod (envs acc.runs.length) acc.processed vodPath
      let handled := match r.result with
        | .ok _ => acc.handled + 1
        | .error _ => acc.handled
      let acc' : LoopState := ⟨r.processed, handled, acc.runs ++ [(vodPath, r.result)]⟩
      if st.runOnce ∧ 1 ≤ handled then (acc', true)
      else webhook_loop st canon fs watchDirExists envs rest acc'

/-- The whole webhook branch of `main` (main.py lines 699-728): run the
loop from a fresh `handled = 0`, then `server.shutdown()` in the
`finally` block.  The last component records that the shutdown always
runs, loop exit or not. -/
def main_webhook (st : Settings) (canon : String → String) (fs : List FileEntry)
    (watchDirExists : Bool) (envs : Nat → PipeEnv) (processed : List String)
    (events : List (Option (List (String × JVal)))) : LoopState × Bool × Bool :=
  let (fin, broke) :=
    webhook_loop st canon fs watchDirExists envs events ⟨processed, 0, []⟩
  (fin, broke, true)

/-- One iteration of the poll branch of `main` (main.py lines 730-740):
the `try` block runs the locator and then the pipeline, any exception is
caught and logged, and with `RUN_ONCE=true` the loop then breaks.
Returns `none` while the locator is still polling (out of modelled
fuel); otherwise the `processed` list after the iteration and the
pipeline invocation made, if any (`none` when the caught exception
aborted the iteration before `run_pipeline_for_vod` was reached). -/
def poll_iteration (st : Settings) (processed : List String)
    (canon : String → String) (cycles : Nat → PollCycle) (fuel : Nat)
    (env : PipeEnv) :
    Option (List String × Option (String × Except String Unit)) :=
  match wait_for_finished_vod st processed canon cycles fuel 0 with
  | none => none
  | some (.error _) => some (processed, none)
  | some (.ok p) =>
    let r := run_pipeline_for_vod env processed p.path
    some (r.processed, some (p.path, r.result))

/-- C5: the Stability Detector samples the file size twice with a sampling
interval of `max(1, W/3)` seconds (Python floor division, as on main.py
line 351) — hence at least 1 second and at least `W/3` seconds — and,
when both samples succeed, returns true exactly when the two sampled
sizes are equal, false whenever they differ. -/
theorem claimC5 (w a b : Nat) :
    samplingInterval w = max 1 (w / 3) ∧
    1 ≤ samplingInterval w ∧
    w / 3 ≤ samplingInterval w ∧
    is_file_stable (.ok a) (.ok b) = .ok (a == b) ∧
    (is_file_stable (.ok a) (.ok b) = .ok true ↔ a = b) ∧
    (is_file_stable (.ok a) (.ok b) = .ok false ↔ a ≠ b) := by
  have hs : is_file_stable (.ok a) (.ok b) = .ok (a == b) := rfl
  refine ⟨rfl, le_max_left _ _, le_max_right _ _, hs, ?_, ?_⟩
  · rw [hs]
    simp [beq_iff_eq]
  · rw [hs]
    simp [beq_eq_false_iff_ne]

/-- C2: the ProcessedSet only grows.  Every `run_pipeline_for_vod`
invocation either leaves the in-memory list and the persisted state
untouched (failure at any stage, or benign skip), or returns success
with exactly the VOD's canonical path appended, that extended list being
written to the state file before returning; no invocation removes an
entry. -/
theorem claimC2 (env : PipeEnv) (processed : List String) (vodPath : String) :
    (∃ t, (run_pipeline_for_vod env processed vodPath).processed = processed ++ t) ∧
    (((run_pipeline_for_vod env processed vodPath).processed = processed ∧
      (run_pipeline_for_vod env processed vodPath).saves = []) ∨
     ((run_pipeline_for_vod env processed vodPath).result = .ok () ∧
      env.canon vodPath ∉ processed ∧
      (run_pipeline_for_vod env processed vodPath).processed =
        processed ++ [env.canon vodPath] ∧
      (run_pipeline_for_vod env processed vodPath).saves =
        [processed ++ [env.canon vodPath]])) := by
  unfold run_pipeline_for_vod
  by_cases h1 : env.fExists vodPath = false
  · simp [h1]
  · rw [if_neg h1]
    by_cases h2 : env.canon vodPath ∈ processed
    · simp [h2]
    · rw [if_neg h2]
      cases hp : env.publish with
      | error e => simp
      | ok u =>
        cases hc : env.createProject with
        | error e => simp
        | ok v =>
          cases ha : env.awaitClips with
          | error e => simp
          | ok w =>
            cases hd : env.downloadClips with
            | error e => simp
            | ok files =>
              cases hu : uploadAll env.upload 1 files with
              | mk ur ucs =>
                cases ur with
                | error e => simp [hu]
                | ok x => simp [hu, h2]

/-- Environment for the C1 counterexample: the VOD file has disappeared
from disk (`fExists` false everywhere), every boundary would succeed. -/
def envC1gone : PipeEnv :=
  ⟨fun _ => false, id, .ok "u", .ok "p", .ok [.str "c"], .ok [], fun _ => .ok "v"⟩

/-- C1 counterexample: "/vods/a.ts" is already in the loaded ProcessedSet,
yet invoking the orchestrator on it does not return — it raises
`FileNotFoundError` (main.py line 527), because the existence check runs
before the already-processed skip check.  (No boundary calls are made and
no state changes, but the claim's "returns" is violated.) -/
theorem claimC1_counterexample :
    (("/vods/a.ts" : String) ∈ (["/vods/a.ts"] : List String)) ∧
    envC1gone.canon "/vods/a.ts" = "/vods/a.ts" ∧
    (run_pipeline_for_vod envC1gone ["/vods/a.ts"] "/vods/a.ts").result =
      .error "VOD file not found" :=
  ⟨by simp, rfl, rfl⟩

/-- C1 (amended): for every VOD path whose canonical path is already in
the loaded ProcessedSet, the orchestrator makes no boundary calls and
leaves the in-memory list and the persisted state untouched; it returns
normally provided the file still exists on disk (when the file is gone
it raises FileNotFoundError instead, still with no calls and no state
change). -/
theorem claimC1 (env : PipeEnv) (processed : List String) (vodPath : String)
    (h : env.canon vodPath ∈ processed) :
    (run_pipeline_for_vod env processed vodPath).calls = [] ∧
    (run_pipeline_for_vod env processed vodPath).processed = processed ∧
    (run_pipeline_for_vod env processed vodPath).saves = [] ∧
    (env.fExists vodPath = true →
      (run_pipeline_for_vod env processed vodPath).result = .ok ()) := by
  unfold run_pipeline_for_vod
  by_cases h1 : env.fExists vodPath = false
  · refine ⟨by simp [h1], by simp [h1], by simp [h1], ?_⟩
    intro h2
    rw [h2] at h1
    simp at h1
  · simp [h1, h]

/-- Environment for the C1 witness: the file exists, the path is already
processed, so the skip branch is taken. -/
def envC1skip : PipeEnv :=
  ⟨fun _ => true, id, .ok "u", .ok "p", .ok [.str "c"], .ok [], fun _ => .ok "v"⟩

/-- C1 witness: a concrete already-processed path with the file present
is a benign skip: no calls, no mutation, normal return. -/
theorem claimC1_witness :
    (run_pipeline_for_vod envC1skip ["/vods/a.ts"] "/vods/a.ts").calls = [] ∧
    (run_pipeline_for_vod envC1skip ["/vods/a.ts"] "/vods/a.ts").processed =
      ["/vods/a.ts"] ∧
    (run_pipeline_for_vod envC1skip ["/vods/a.ts"] "/vods/a.ts").saves = [] ∧
    (envC1skip.fExists "/vods/a.ts" = true →
      (run_pipeline_for_vod envC1skip ["/vods/a.ts"] "/vods/a.ts").result = .ok ()) :=
  claimC1 envC1skip ["/vods/a.ts"] "/vods/a.ts" (by simp [envC1skip])

/-- Every `time.sleep` recorded by the clip-wait loop is the configured
poll interval. -/
theorem waitGo_sleeps (t i : Nat) (polls : Nat → Except String (List JVal))
    (el : Nat → Nat) :
    ∀ (fuel p : Nat) (s : List Nat) (r : Except WaitErr (List JVal)) (sl : List Nat),
      waitClipsGo t i polls el fuel p s = some (r, sl) →
      (∀ x ∈ s, x = i) → (∀ x ∈ sl, x = i) := by
  intro fuel
  induction fuel with
  | zero =>
    intro p s r sl h
    simp [waitClipsGo] at h
  | succ n ih =>
    intro p s r sl h hs
    simp only [waitClipsGo] at h
    split at h
    · simp only [Option.some.injEq, Prod.mk.injEq] at h
      rw [← h.2]
      exact hs
    · split at h
      · simp only [Option.some.injEq, Prod.mk.injEq] at h
        rw [← h.2]
        exact hs
      · split at h
        · simp only [Option.some.injEq, Prod.mk.injEq] at h
          rw [← h.2]
          exact hs
        · refine ih (p + 1) (s ++ [i]) r sl h ?_
          intro x hx
          rcases List.mem_append.mp hx with hx1 | hx2
          · exact hs x hx1
          · simpa using hx2

/-- A successful clip wait returns the clips of the first poll that
reported a non-empty list; all earlier polls reported the empty list. -/
theorem waitGo_ok_first (t i : Nat) (polls : Nat → Except String (List JVal))
    (el : Nat → Nat) :
    ∀ (fuel p : Nat) (s : List Nat) (clips : List JVal) (sl : List Nat),
      waitClipsGo t i polls el fuel p s = some (.ok clips, sl) →
      ∃ n, p ≤ n ∧ polls n = .ok clips ∧ 0 < clips.length ∧
        ∀ m, p ≤ m → m < n → polls m = .ok [] := by
  intro fuel
  induction fuel with
  | zero =>
    intro p s clips sl h
    simp [waitClipsGo] at h
  | succ n ih =>
    intro p s clips sl h
    simp only [waitClipsGo] at h
    split at h
    · simp at h
    · rename_i c hp
      split at h
      · rename_i hlen
        simp only [Option.some.injEq, Prod.mk.injEq, Except.ok.injEq] at h
        refine ⟨p, le_refl p, ?_, ?_, ?_⟩
        · rw [hp, h.1]
        · rw [← h.1]
          exact hlen
        · intro m h1 h2
          omega
      · rename_i hlen
        split at h
        · simp at h
        · obtain ⟨m, hm1, hm2, hm3, hm4⟩ := ih (p + 1) (s ++ [i]) clips sl h
          have hc : c = [] := List.length_eq_zero.mp (by omega)
          refine ⟨m, by omega, hm2, hm3, ?_⟩
          intro k hk1 hk2
          by_cases hkp : k = p
          · rw [hkp, hp, hc]
          · exact hm4 k (by omega) hk2

/-- If every poll up to `N` reports the empty list and the elapsed time
observed after poll `N` exceeds the timeout, the wait raises
`TimeoutError` (given fuel to reach poll `N`). -/
theorem waitGo_timeout (t i : Nat) (polls : Nat → Except String (List JVal))
    (el : Nat → Nat) :
    ∀ (fuel p : Nat) (s : List Nat) (N : Nat), p ≤ N → N - p < fuel →
      (∀ m, p ≤ m → m ≤ N → polls m = .ok []) →
      t < el N →
      ∃ sl, waitClipsGo t i polls el fuel p s = some (.error .timeout, sl) := by
  intro fuel
  induction fuel with
  | zero =>
    intro p s N h1 h2
    omega
  | succ n ih =>
    intro p s N h1 h2 hempty htime
    have hp : polls p = .ok [] := hempty p (le_refl p) h1
    by_cases ht : t < el p
    · refine ⟨s, ?_⟩
      simp [waitClipsGo, hp, ht]
    · have hpN : p ≠ N := by
        intro hEq
        rw [hEq] at ht
        exact ht htime
      obtain ⟨sl, hsl⟩ := ih (p + 1) (s ++ [i]) N (by omega) (by omega)
        (fun m hm1 hm2 => hempty m (by omega) hm2) htime
      refine ⟨sl, ?_⟩
      simp [waitClipsGo, hp, ht, hsl]

/-- Any failure of the clip wait aborts `run_pipeline_for_vod` before the
commit stage: the ProcessedSet is untouched and nothing is written. -/
theorem pipeline_awaitClips_error (env : PipeEnv) (processed : List String)
    (vodPath : String) (e : String) (h : env.awaitClips = .error e) :
    (run_pipeline_for_vod env processed vodPath).processed = processed ∧
    (run_pipeline_for_vod env processed vodPath).saves = [] := by
  unfold run_pipeline_for_vod
  by_cases h1 : env.fExists vodPath = false
  · simp [h1]
  · rw [if_neg h1]
    by_cases h2 : env.canon vodPath ∈ processed
    · simp [h2]
    · rw [if_neg h2]
      cases hp : env.publish with
      | error e2 => simp
      | ok u =>
        cases hc : env.createProject with
        | error e2 => simp
        | ok v => simp [h]

/-- C3: the clip-readiness wait sleeps exactly the configured poll
interval between polls, returns the first poll's non-empty clip list as
soon as one appears, raises `TimeoutError` when every poll up to the
first elapsed-time overrun reported no clips, and any such failure
leaves the ProcessedSet (in memory and on disk) unchanged by the run. -/
theorem claimC3 (st : Settings) (polls : Nat → Except String (List JVal))
    (elapsedAt : Nat → Nat) (fuel : Nat) :
    (∀ r sleeps, wait_exportable_clips st polls elapsedAt fuel = some (r, sleeps) →
      ∀ x ∈ sleeps, x = st.opusPollIntervalSec) ∧
    (∀ clips sleeps,
      wait_exportable_clips st polls elapsedAt fuel = some (.ok clips, sleeps) →
      ∃ n, 1 ≤ n ∧ polls n = .ok clips ∧ 0 < clips.length ∧
        ∀ m, 1 ≤ m → m < n → polls m = .ok []) ∧
    (∀ N, 1 ≤ N → N ≤ fuel → (∀ m, 1 ≤ m → m ≤ N → polls m = .ok []) →
      st.opusWaitTimeoutSec < elapsedAt N →
      ∃ sleeps, wait_exportable_clips st polls elapsedAt fuel =
        some (.error .timeout, sleeps)) ∧
    (∀ (env : PipeEnv) (processed : List String) (vodPath : String) (e : String),
      env.awaitClips = .error e →
      (run_pipeline_for_vod env processed vodPath).processed = processed ∧
      (run_pipeline_for_vod env processed vodPath).saves = []) := by
  refine ⟨?_, ?_, ?_, ?_⟩
  · intro r sleeps h
    exact waitGo_sleeps st.opusWaitTimeoutSec st.opusPollIntervalSec polls elapsedAt
      fuel 1 [] r sleeps h (by simp)
  · intro clips sleeps h
    exact waitGo_ok_first st.opusWaitTimeoutSec st.opusPollIntervalSec polls elapsedAt
      fuel 1 [] clips sleeps h
  · intro N h1 h2 hempty htime
    exact waitGo_timeout st.opusWaitTimeoutSec st.opusPollIntervalSec polls elapsedAt
      fuel 1 [] N h1 (by omega) (fun m hm1 hm2 => hempty m hm1 hm2) htime
  · intro env processed vodPath e h
    exact pipeline_awaitClips_error env processed vodPath e h

/-- Settings for the C3 witness. -/
def stC3 : Settings :=
  ⟨"/hook", "", "/w", [".ts"], 20, 120, 200, "", "", 300, 15, true⟩

/-- Poll oracle for the C3 witness: first poll empty, clips ready on the
second. -/
def pollsC3 : Nat → Except String (List JVal) :=
  fun n => if n ≤ 1 then .ok [] else .ok [.str "clip"]

/-- C3 witness: on a concrete run whose second poll returns one clip, the
wait returns that clip list and every earlier poll was empty. -/
theorem claimC3_witness :
    ∃ n, 1 ≤ n ∧ pollsC3 n = .ok [.str "clip"] ∧ 0 < [JVal.str "clip"].length ∧
      ∀ m, 1 ≤ m → m < n → pollsC3 m = .ok [] :=
  (claimC3 stC3 pollsC3 (fun n => n) 5).2.1 [.str "clip"] [15] rfl

/-- Settings for the C6 counterexample: default webhook path, no token. -/
def stC6 : Settings :=
  ⟨"/webhook/livestreamdvr", "", "/w", [".ts"], 20, 120, 200, "", "", 300, 15, true⟩

/-- `json.loads` oracle for the C6 counterexample, truthful at the probed
body: the six bytes "[1, 2]" parse to the JSON array [1, 2]. -/
def parseC6 : String → Option JVal :=
  fun s => if s = "[1, 2]" then some (.arr [.num 1, .num 2]) else none

/-- C6 counterexample: a POST to the correct path whose body is the valid
JSON array "[1, 2]" — a single structured JSON value — is neither
rejected with 400 nor enqueued with 200: `payload.get("action")` on
main.py line 668 raises `AttributeError` on the list, so the handler
dies with no response and nothing enqueued. -/
theorem claimC6_counterexample :
    do_POST (some stC6) parseC6
      ⟨"/webhook/livestreamdvr", none, some "6", "[1, 2]"⟩ = .error () := rfl

/-- C6 (amended): path mismatches get 404; with a token configured, a
header mismatch gets 401; a body that does not parse as JSON gets 400
with nothing enqueued; a body parsing to a JSON object is enqueued with
200; but a body parsing to any non-object JSON value (array or scalar)
makes the handler raise before responding: no status is sent and
nothing is enqueued. -/
theorem claimC6 (s : Settings) (parse : String → Option JVal) (req : HttpReq) :
    (req.path ≠ s.webhookPath → do_POST (some s) parse req = .ok (404, none)) ∧
    (req.path = s.webhookPath → s.webhookToken ≠ "" →
      req.token.getD "" ≠ s.webhookToken →
      do_POST (some s) parse req = .ok (401, none)) ∧
    (req.path = s.webhookPath →
      (s.webhookToken = "" ∨ req.token.getD "" = s.webhookToken) →
      (parse (requestBody req) = none → do_POST (some s) parse req = .ok (400, none)) ∧
      (∀ fields, parse (requestBody req) = some (.obj fields) →
        do_POST (some s) parse req = .ok (200, some (.obj fields))) ∧
      (∀ v, parse (requestBody req) = some v → (∀ fields, v ≠ .obj fields) →
        do_POST (some s) parse req = .error ())) := by
  have htokOk : ∀ (htok : s.webhookToken = "" ∨ req.token.getD "" = s.webhookToken),
      ¬(s.webhookToken ≠ "" ∧ req.token.getD "" ≠ s.webhookToken) := by
    intro htok hc
    rcases htok with h | h
    · exact hc.1 h
    · exact hc.2 h
  refine ⟨?_, ?_, ?_⟩
  · intro hp
    simp [do_POST, hp]
  · intro hp ht1 ht2
    simp [do_POST, hp, ht1, ht2]
  · intro hp htok
    refine ⟨?_, ?_, ?_⟩
    · intro hparse
      simp [do_POST, hp, htokOk htok, hparse]
    · intro fields hparse
      simp [do_POST, hp, htokOk htok, hparse]
    · intro v hparse hv
      cases v with
      | obj fields => exact absurd rfl (hv fields)
      | arr items => simp [do_POST, hp, htokOk htok, hparse]
      | str t => simp [do_POST, hp, htokOk htok, hparse]
      | num n => simp [do_POST, hp, htokOk htok, hparse]
      | jbool b => simp [do_POST, hp, htokOk htok, hparse]
      | jnull => simp [do_POST, hp, htokOk htok, hparse]

/-- C6 witness: a POST on the wrong path gets 404. -/
theorem claimC6_witness :
    do_POST (some stC6) parseC6 ⟨"/other", none, none, ""⟩ = .ok (404, none) :=
  (claimC6 stC6 parseC6 ⟨"/other", none, none, ""⟩).1 (by decide)

/-- `json.loads` oracle for C10, truthful at the probed body: the bytes of
an empty JSON object parse to the empty object. -/
def parseC10 : String → Option JVal :=
  fun s => if s = "\x7b\x7d" then some (.obj []) else none

/-- C10: a POST to the configured path (passing the token check) whose
Content-Length header is absent, zero, or non-numeric reads no body and
substitutes the bytes of an empty JSON object: the request is answered
200 and the empty-object payload is enqueued. -/
theorem claimC10 (s : Settings) (parse : String → Option JVal) (req : HttpReq)
    (hpath : req.path = s.webhookPath)
    (htok : s.webhookToken = "" ∨ req.token.getD "" = s.webhookToken)
    (hcl : req.contentLength = none ∨
      pyInt (req.contentLength.getD "0") = none ∨
      pyInt (req.contentLength.getD "0") = some 0)
    (hparse : parse "\x7b\x7d" = some (.obj [])) :
    do_POST (some s) parse req = .ok (200, some (.obj [])) := by
  have htokOk : ¬(s.webhookToken ≠ "" ∧ req.token.getD "" ≠ s.webhookToken) := by
    intro hc
    rcases htok with h | h
    · exact hc.1 h
    · exact hc.2 h
  have h0 : pyInt "0" = some 0 := rfl
  have hbody : requestBody req = "\x7b\x7d" := by
    unfold requestBody
    rcases hcl with h | h | h
    · rw [h]
      simp [h0]
    · rw [h]
      simp
    · rw [h]
      simp
  simp [do_POST, hpath, htokOk, hbody, hparse]

/-- C10 witness: a concrete tokenless POST with no Content-Length header
is accepted with 200 and the empty-object payload enqueued. -/
theorem claimC10_witness :
    do_POST (some stC6) parseC10 ⟨"/webhook/livestreamdvr", none, none, ""⟩ =
      .ok (200, some (.obj [])) :=
  claimC10 stC6 parseC10 ⟨"/webhook/livestreamdvr", none, none, ""⟩ rfl
    (Or.inl rfl) (Or.inl rfl) rfl

/-- Settings for the C7 counterexample: webhook mode essentials with
`RUN_ONCE=true` and no rewrite configured. -/
def stC7 : Settings :=
  ⟨"/hook", "", "/w", [".ts"], 20, 120, 0, "", "", 300, 15, true⟩

/-- Filesystem for the C7 counterexample: the reported VOD exists. -/
def fsC7 : List FileEntry := [⟨"/w/a.ts", 5, 0⟩]

/-- A recorder completion event pointing at the existing VOD. -/
def payloadC7 : List (String × JVal) :=
  [("action", .str "end_download"),
   ("data", .obj [("vod", .obj [("path_downloaded_vod", .str "/w/a.ts")])])]

/-- Pipeline environments for the C7 counterexample: the first invocation
raises during Publish, the second succeeds end to end. -/
def envsC7 : Nat → PipeEnv :=
  fun i =>
    if i = 0 then
      ⟨fun _ => true, id, .error "publish failed", .ok "p", .ok [], .ok [],
        fun _ => .ok "v"⟩
    else
      ⟨fun _ => true, id, .ok "u", .ok "p", .ok [.str "c"], .ok [],
        fun _ => .ok "v"⟩

/-- C7 counterexample: with the run-once flag set, the first dequeued
event resolves and the orchestrator is invoked for it, but the run
raises, `handled += 1` (main.py line 720) is skipped, and the loop does
NOT terminate: it dequeues a second event and invokes the orchestrator
again, only then breaking.  Under the claim the loop should have
terminated after the first invocation. -/
theorem claimC7_counterexample :
    (webhook_loop stC7 id fsC7 true envsC7 [some payloadC7, some payloadC7]
        ⟨[], 0, []⟩).1.runs =
      [("/w/a.ts", .error "publish failed"), ("/w/a.ts", .ok ())] ∧
    (webhook_loop stC7 id fsC7 true envsC7 [some payloadC7, some payloadC7]
        ⟨[], 0, []⟩).2 = true := ⟨rfl, rfl⟩

/-- In run-once webhook mode, starting from a state with no successful
run yet, the loop breaks exactly at the first pipeline invocation that
returns without raising: every invocation before it raised, and if the
modelled event prefix ends without a break, every invocation raised. -/
theorem webhook_loop_break (st : Settings) (canon : String → String)
    (fs : List FileEntry) (wde : Bool) (envs : Nat → PipeEnv)
    (hro : st.runOnce = true) :
    ∀ (events : List (Option (List (String × JVal)))) (acc : LoopState),
      acc.handled = 0 →
      ∃ newRuns,
        (webhook_loop st canon fs wde envs events acc).1.runs =
          acc.runs ++ newRuns ∧
        ((webhook_loop st canon fs wde envs events acc).2 = true →
          ∃ pre last, newRuns = pre ++ [last] ∧ last.2 = .ok () ∧
            ∀ r ∈ pre, ∃ e, r.2 = .error e) ∧
        ((webhook_loop st canon fs wde envs events acc).2 = false →
          ∀ r ∈ newRuns, ∃ e, r.2 = .error e) := by
  intro events
  induction events with
  | nil =>
    intro acc hacc
    refine ⟨[], by simp [webhook_loop], ?_, ?_⟩
    · intro hb
      simp [webhook_loop] at hb
    · intro hb r hr
      simp at hr
  | cons ev rest ih =>
    intro acc hacc
    cases ev with
    | none =>
      simpa only [webhook_loop] using ih acc hacc
    | some payload =>
      simp only [webhook_loop]
      cases hres : resolve_vod_from_webhook st canon fs wde payload acc.processed with
      | none =>
        simpa only using ih acc hacc
      | some vodPath =>
        cases hr : (run_pipeline_for_vod (envs acc.runs.length) acc.processed
            vodPath).result with
        | error e =>
          simp only [hr, hacc]
          have hcond : ¬(st.runOnce = true ∧ 1 ≤ 0) := by
            intro hc
            omega
          rw [if_neg hcond]
          obtain ⟨newRuns, h1, h2, h3⟩ :=
            ih ⟨(run_pipeline_for_vod (envs acc.runs.length) acc.processed
                  vodPath).processed, 0,
                acc.runs ++ [(vodPath,
                  (run_pipeline_for_vod (envs acc.runs.length) acc.processed
                    vodPath).result)]⟩ rfl
          rw [hr] at h1 h2 h3
          refine ⟨(vodPath, .error e) :: newRuns, ?_, ?_, ?_⟩
          · rw [h1]
            simp
          · intro hb
            obtain ⟨pre, last, hpre, hlast, herr⟩ := h2 hb
            refine ⟨(vodPath, .error e) :: pre, last, ?_, hlast, ?_⟩
            · rw [hpre]
              simp
            · intro r hrr
              rcases List.mem_cons.mp hrr with h | h
              · exact ⟨e, by rw [h]⟩
              · exact herr r h
          · intro hb r hrr
            rcases List.mem_cons.mp hrr with h | h
            · exact ⟨e, by rw [h]⟩
            · exact h3 hb r h
        | ok u =>
          simp only [hr, hacc]
          have hcond : st.runOnce = true ∧ 1 ≤ 1 := ⟨hro, le_refl 1⟩
          rw [if_pos hcond]
          refine ⟨[(vodPath, .ok ())], ?_, ?_, ?_⟩
          · simp [hr]
          · intro hb
            exact ⟨[], (vodPath, .ok ()), by simp, rfl, by simp⟩
          · intro hb
            simp at hb

/-- C7 (amended): in webhook mode with the run-once flag set, the loop
terminates after the first pipeline invocation that returns without
raising (including a benign already-processed skip) and the listener is
then shut down in the `finally` block; an invocation that raises does
not count as handled (`handled += 1` on main.py line 720 is skipped), so
the loop keeps consuming events after a failed run. -/
theorem claimC7 (st : Settings) (canon : String → String) (fs : List FileEntry)
    (wde : Bool) (envs : Nat → PipeEnv) (processed : List String)
    (events : List (Option (List (String × JVal))))
    (hro : st.runOnce = true) :
    (main_webhook st canon fs wde envs processed events).2.2 = true ∧
    ((main_webhook st canon fs wde envs processed events).2.1 = true →
      ∃ pre last,
        (main_webhook st canon fs wde envs processed events).1.runs =
          pre ++ [last] ∧ last.2 = .ok () ∧
        ∀ r ∈ pre, ∃ e, r.2 = .error e) ∧
    ((main_webhook st canon fs wde envs processed events).2.1 = false →
      ∀ r ∈ (main_webhook st canon fs wde envs processed events).1.runs,
        ∃ e, r.2 = .error e) := by
  obtain ⟨newRuns, h1, h2, h3⟩ :=
    webhook_loop_break st canon fs wde envs hro events ⟨processed, 0, []⟩ rfl
  have hmw : main_webhook st canon fs wde envs processed events =
      ((webhook_loop st canon fs wde envs events ⟨processed, 0, []⟩).1,
       (webhook_loop st canon fs wde envs events ⟨processed, 0, []⟩).2, true) := by
    unfold main_webhook
    rfl
  rw [hmw]
  simp only at h1
  refine ⟨rfl, ?_, ?_⟩
  · intro hb
    obtain ⟨pre, last, hpre, hlast, herr⟩ := h2 hb
    refine ⟨pre, last, ?_, hlast, herr⟩
    rw [h1, hpre]
    simp
  · intro hb r hr
    refine h3 hb r ?_
    rw [h1] at hr
    simpa using hr

/-- Pipeline environments for the C7 witness: every invocation succeeds. -/
def envsC7ok : Nat → PipeEnv :=
  fun _ => ⟨fun _ => true, id, .ok "u", .ok "p", .ok [.str "c"], .ok [],
    fun _ => .ok "v"⟩

/-- C7 witness: on a concrete single-event run whose pipeline invocation
succeeds, the loop breaks having made exactly that one successful run,
and the listener is shut down. -/
theorem claimC7_witness :
    (main_webhook stC7 id fsC7 true envsC7ok [] [some payloadC7]).2.2 = true ∧
    ((main_webhook stC7 id fsC7 true envsC7ok [] [some payloadC7]).2.1 = true →
      ∃ pre last,
        (main_webhook stC7 id fsC7 true envsC7ok [] [some payloadC7]).1.runs =
          pre ++ [last] ∧ last.2 = .ok () ∧
        ∀ r ∈ pre, ∃ e, r.2 = .error e) ∧
    ((main_webhook stC7 id fsC7 true envsC7ok [] [some payloadC7]).2.1 = false →
      ∀ r ∈ (main_webhook stC7 id fsC7 true envsC7ok [] [some payloadC7]).1.runs,
        ∃ e, r.2 = .error e) :=
  claimC7 stC7 id fsC7 true envsC7ok [] [some payloadC7] rfl

/-- Settings for C8: rewrite configured from the recorder mount to the
local mount. -/
def stC8 : Settings :=
  ⟨"/hook", "", "/w", [".ts"], 20, 120, 200, "/rec/", "/local/", 300, 15, true⟩

/-- Filesystem for the C8 counterexample: the rewritten path exists on
disk as a regular file, but with a non-media extension. -/
def fsC8 : List FileEntry := [⟨"/local/x.log", 10, 0⟩]

/-- A completion event whose direct candidate path lies under the
rewrite-from mount and carries a non-media extension. -/
def payloadC8 : List (String × JVal) :=
  [("action", .str "end_download"),
   ("data", .obj [("vod", .obj [("path_downloaded_vod", .str "/rec/x.log")])])]

/-- C8 counterexample: the event carries direct candidate "/rec/x.log"
under the configured rewrite-from mount, the rewritten path
"/local/x.log" exists on disk as a file — yet the resolver returns
nothing, because the rewritten path's extension is not in the allow-list
(main.py line 599).  The claim's "returns the rewritten path whenever it
exists on disk as a file" omits the extension condition. -/
theorem claimC8_counterexample :
    strStartsWith "/rec/x.log" stC8.rewriteFrom = true ∧
    rewrite_source_path stC8 id "/rec/x.log" = "/local/x.log" ∧
    lookupFile fsC8 "/local/x.log" = some ⟨"/local/x.log", 10, 0⟩ ∧
    resolve_vod_from_webhook stC8 id fsC8 true payloadC8 [] = none :=
  ⟨rfl, rfl, rfl, rfl⟩

/-- C8 (amended): for a completion event whose `path_downloaded_vod`
starts with the configured rewrite-from prefix (both rewrite ends
configured), the resolver returns the canonicalised path with that
prefix replaced by the rewrite-to prefix whenever that path exists on
disk as a file AND its lowercased extension is in the configured
allow-list. -/
theorem claimC8 (st : Settings) (canon : String → String) (fs : List FileEntry)
    (wde : Bool) (payload dataFields vodFields : List (String × JVal))
    (raw : String) (processed : List String)
    (haction : jget payload "action" = some (.str "end_download"))
    (hdata : jget payload "data" = some (.obj dataFields))
    (hvod : jget dataFields "vod" = some (.obj vodFields))
    (hraw : jget vodFields "path_downloaded_vod" = some (.str raw))
    (htrim : pyStrip raw = raw) (hne : raw ≠ "")
    (hfrom : st.rewriteFrom ≠ "") (hto : st.rewriteTo ≠ "")
    (hsw : strStartsWith raw st.rewriteFrom = true)
    (hexists : (lookupFile fs
      (canon (st.rewriteTo ++ strDrop raw st.rewriteFrom.length))).isSome = true)
    (hext : suffixLower (canon (st.rewriteTo ++ strDrop raw st.rewriteFrom.length))
      ∈ st.vodExtensions) :
    resolve_vod_from_webhook st canon fs wde payload processed =
      some (canon (st.rewriteTo ++ strDrop raw st.rewriteFrom.length)) := by
  have hrw : rewrite_source_path st canon raw =
      canon (st.rewriteTo ++ strDrop raw st.rewriteFrom.length) := by
    unfold rewrite_source_path
    rw [if_pos ⟨hfrom, hto, hsw⟩]
  simp [resolve_vod_from_webhook, haction, hdata, hvod, hraw, jIsStr,
    htrim, hne, hrw, hexists, hext]

/-- Filesystem for the C8 witness: the rewritten media path exists. -/
def fsC8w : List FileEntry := [⟨"/local/x.ts", 10, 0⟩]

/-- A completion event pointing at a media file under the rewrite-from
mount. -/
def payloadC8w : List (String × JVal) :=
  [("action", .str "end_download"),
   ("data", .obj [("vod", .obj [("path_downloaded_vod", .str "/rec/x.ts")])])]

/-- C8 witness: a concrete media candidate under the rewrite-from mount
resolves to the rewritten path. -/
theorem claimC8_witness :
    resolve_vod_from_webhook stC8 id fsC8w true payloadC8w [] =
      some (id (stC8.rewriteTo ++ strDrop "/rec/x.ts" stC8.rewriteFrom.length)) :=
  claimC8 stC8 id fsC8w true payloadC8w
    [("vod", .obj [("path_downloaded_vod", .str "/rec/x.ts")])]
    [("path_downloaded_vod", .str "/rec/x.ts")] "/rec/x.ts" []
    rfl rfl rfl rfl rfl (by decide) (by decide) (by decide) rfl rfl (by decide)

/-- Settings for C9: poll mode essentials. -/
def stC9 : Settings :=
  ⟨"/hook", "", "/w", [".ts"], 20, 120, 200, "", "", 300, 15, true⟩

/-- The C9 poll cycle: the newest candidate passes the size and age
checks but vanishes between the Stability Detector's two size samples
(its second `stat` raises); an older candidate is eligible and stable. -/
def cycC9 : PollCycle :=
  ⟨100000,
   [⟨"/w/gone.ts", 300 * 1024 * 1024, 10⟩, ⟨"/w/ok.ts", 300 * 1024 * 1024, 5⟩],
   fun _ => .ok (300 * 1024 * 1024),
   fun p => if p = "/w/gone.ts" then .error () else .ok (300 * 1024 * 1024)⟩

/-- Pipeline environment for C9 (never reached on the failing input). -/
def envC9 : PipeEnv :=
  ⟨fun _ => true, id, .ok "u", .ok "p", .ok [.str "c"], .ok [],
    fun _ => .ok "v"⟩

/-- C9: what the code does when a candidate file disappears between the
two size samples.  The `FileNotFoundError` from the second `stat`
escapes `is_file_stable` and the whole locator (`scanCandidates` /
`wait_for_finished_vod` propagate it instead of skipping the candidate),
even though the very next candidate in the same cycle was eligible and
stable; in `main`'s poll loop the exception is caught at top level and,
with `RUN_ONCE=true`, the process exits without selecting any file and
without retrying.  The claim (and spec §4.1) requires the locator to
treat the vanished candidate as not-yet-ready and retry. -/
theorem claimC9_code_behavior :
    is_file_stable (cycC9.stat1 "/w/gone.ts") (cycC9.stat2 "/w/gone.ts") =
      .error () ∧
    scanCandidates stC9 [] id cycC9 (list_vod_candidates stC9 cycC9.fs) =
      .error () ∧
    scanCandidates stC9 [] id cycC9 [⟨"/w/ok.ts", 300 * 1024 * 1024, 5⟩] =
      .ok (some ⟨"/w/ok.ts", 300 * 1024 * 1024, 5⟩) ∧
    wait_for_finished_vod stC9 [] id (fun _ => cycC9) 5 0 = some (.error ()) ∧
    poll_iteration stC9 [] id (fun _ => cycC9) 5 envC9 = some ([], none) :=
  ⟨rfl, rfl, rfl, rfl, rfl⟩

/-- Membership in a descending insertion. -/
theorem mem_orderedInsertDesc (key : FileEntry → Int) (a : FileEntry)
    (l : List FileEntry) (x : FileEntry) :
    x ∈ orderedInsertDesc key a l ↔ x = a ∨ x ∈ l := by
  induction l with
  | nil => simp [orderedInsertDesc]
  | cons b t ih =>
    simp only [orderedInsertDesc]
    split
    · simp [List.mem_cons]
    · simp only [List.mem_cons, ih]
      tauto

/-- The stable descending sort is a permutation membership-wise. -/
theorem mem_sortByDesc (key : FileEntry → Int) (l : List FileEntry)
    (x : FileEntry) : x ∈ sortByDesc key l ↔ x ∈ l := by
  induction l with
  | nil => simp [sortByDesc]
  | cons a t ih =>
    simp [sortByDesc, mem_orderedInsertDesc, ih]

/-- Descending insertion preserves descending sortedness. -/
theorem sorted_orderedInsertDesc (key : FileEntry → Int) (a : FileEntry)
    (l : List FileEntry) (h : l.Pairwise (fun x y => key y ≤ key x)) :
    (orderedInsertDesc key a l).Pairwise (fun x y => key y ≤ key x) := by
  induction l with
  | nil => simp [orderedInsertDesc]
  | cons b t ih =>
    simp only [orderedInsertDesc]
    have h' := List.pairwise_cons.mp h
    split
    · rename_i hba
      refine List.pairwise_cons.mpr ⟨?_, h⟩
      intro y hy
      rcases List.mem_cons.mp hy with h1 | h1
      · rw [h1]
        exact hba
      · have := h'.1 y h1
        omega
    · rename_i hba
      refine List.pairwise_cons.mpr ⟨?_, ih h'.2⟩
      intro y hy
      rcases (mem_orderedInsertDesc key a t y).mp hy with h1 | h1
      · rw [h1]
        omega
      · exact h'.1 y h1

/-- The stable descending sort is sorted, newest key first. -/
theorem sorted_sortByDesc (key : FileEntry → Int) (l : List FileEntry) :
    (sortByDesc key l).Pairwise (fun x y => key y ≤ key x) := by
  induction l with
  | nil => simp [sortByDesc]
  | cons a t ih => exact sorted_orderedInsertDesc key a _ ih

/-- When the candidate scan selects `p`, the list splits at `p`: `p`
passed every filter and the stability check, and every candidate tried
before `p` was skipped (already processed, too small, too young) or
found unstable. -/
theorem scanCandidates_ok_some (st : Settings) (seen : List String)
    (canon : String → String) (cyc : PollCycle) :
    ∀ (l : List FileEntry) (p : FileEntry),
      scanCandidates st seen canon cyc l = .ok (some p) →
      ∃ l1 l2, l = l1 ++ p :: l2 ∧
        (canon p.path ∉ seen ∧ minBytes st ≤ p.size ∧
         (st.stableForSec : Int) ≤ cyc.now - p.mtime ∧
         is_file_stable (cyc.stat1 p.path) (cyc.stat2 p.path) = .ok true) ∧
        ∀ q ∈ l1, canon q.path ∈ seen ∨ q.size < minBytes st ∨
          cyc.now - q.mtime < (st.stableForSec : Int) ∨
          is_file_stable (cyc.stat1 q.path) (cyc.stat2 q.path) = .ok false := by
  intro l
  induction l with
  | nil =>
    intro p h
    simp [scanCandidates] at h
  | cons q rest ih =>
    intro p h
    simp only [scanCandidates] at h
    by_cases h1 : canon q.path ∈ seen
    · rw [if_pos h1] at h
      obtain ⟨l1, l2, hsplit, hp, hskip⟩ := ih p h
      refine ⟨q :: l1, l2, by rw [hsplit]; rfl, hp, ?_⟩
      intro x hx
      rcases List.mem_cons.mp hx with h2 | h2
      · rw [h2]
        exact Or.inl h1
      · exact hskip x h2
    · rw [if_neg h1] at h
      by_cases h2 : q.size < minBytes st
      · rw [if_pos h2] at h
        obtain ⟨l1, l2, hsplit, hp, hskip⟩ := ih p h
        refine ⟨q :: l1, l2, by rw [hsplit]; rfl, hp, ?_⟩
        intro x hx
        rcases List.mem_cons.mp hx with h3 | h3
        · rw [h3]
          exact Or.inr (Or.inl h2)
        · exact hskip x h3
      · rw [if_neg h2] at h
        by_cases h3 : cyc.now - q.mtime < (st.stableForSec : Int)
        · rw [if_pos h3] at h
          obtain ⟨l1, l2, hsplit, hp, hskip⟩ := ih p h
          refine ⟨q :: l1, l2, by rw [hsplit]; rfl, hp, ?_⟩
          intro x hx
          rcases List.mem_cons.mp hx with h4 | h4
          · rw [h4]
            exact Or.inr (Or.inr (Or.inl h3))
          · exact hskip x h4
        · rw [if_neg h3] at h
          cases hst : is_file_stable (cyc.stat1 q.path) (cyc.stat2 q.path) with
          | error e =>
            rw [hst] at h
            simp at h
          | ok b =>
            rw [hst] at h
            cases b with
            | true =>
              have hqp : q = p := by simpa using h
              subst hqp
              refine ⟨[], rest, rfl, ⟨h1, by omega, by omega, hst⟩, ?_⟩
              intro x hx
              simp at hx
            | false =>
              obtain ⟨l1, l2, hsplit, hp, hskip⟩ := ih p h
              refine ⟨q :: l1, l2, by rw [hsplit]; rfl, hp, ?_⟩
              intro x hx
              rcases List.mem_cons.mp hx with h4 | h4
              · rw [h4]
                exact Or.inr (Or.inr (Or.inr hst))
              · exact hskip x h4

/-- When the locator returns a file, some poll cycle's scan selected it. -/
theorem wait_ok_some (st : Settings) (processed : List String)
    (canon : String → String) (cycles : Nat → PollCycle) :
    ∀ (fuel k : Nat) (p : FileEntry),
      wait_for_finished_vod st processed canon cycles fuel k = some (.ok p) →
      ∃ j, k ≤ j ∧
        scanCandidates st processed canon (cycles j)
          (list_vod_candidates st (cycles j).fs) = .ok (some p) := by
  intro fuel
  induction fuel with
  | zero =>
    intro k p h
    simp [wait_for_finished_vod] at h
  | succ n ih =>
    intro k p h
    simp only [wait_for_finished_vod] at h
    cases hs : scanCandidates st processed canon (cycles k)
        (list_vod_candidates st (cycles k).fs) with
    | error e =>
      rw [hs] at h
      simp at h
    | ok o =>
      rw [hs] at h
      cases o with
      | some q =>
        have hqp : q = p := by simpa using h
        exact ⟨k, le_refl k, by rw [hs, hqp]⟩
      | none =>
        obtain ⟨j, hj1, hj2⟩ := ih (k + 1) p h
        exact ⟨j, by omega, hj2⟩

/-- C4: any file returned by the poll-strategy locator has an allowed
extension, is at least the configured minimum size, its canonical path
is not in the ProcessedSet snapshot taken at the start of the call, and
in the cycle that selected it its age was at least the stability window
and its two size samples agreed; the candidate list of that cycle is
sorted most-recently-modified first and every candidate tried before the
returned one was skipped or unstable. -/
theorem claimC4 (st : Settings) (processed : List String)
    (canon : String → String) (cycles : Nat → PollCycle) (fuel start : Nat)
    (p : FileEntry)
    (h : wait_for_finished_vod st processed canon cycles fuel start =
      some (.ok p)) :
    suffixLower p.path ∈ st.vodExtensions ∧
    minBytes st ≤ p.size ∧
    canon p.path ∉ processed ∧
    ∃ k, start ≤ k ∧
      (st.stableForSec : Int) ≤ (cycles k).now - p.mtime ∧
      is_file_stable ((cycles k).stat1 p.path) ((cycles k).stat2 p.path) =
        .ok true ∧
      (list_vod_candidates st (cycles k).fs).Pairwise
        (fun a b => b.mtime ≤ a.mtime) ∧
      ∃ l1 l2, list_vod_candidates st (cycles k).fs = l1 ++ p :: l2 ∧
        ∀ q ∈ l1, canon q.path ∈ processed ∨ q.size < minBytes st ∨
          (cycles k).now - q.mtime < (st.stableForSec : Int) ∨
          is_file_stable ((cycles k).stat1 q.path) ((cycles k).stat2 q.path) =
            .ok false := by
  obtain ⟨j, hj, hscan⟩ := wait_ok_some st processed canon cycles fuel start p h
  obtain ⟨l1, l2, hsplit, ⟨hseen, hsize, hage, hstable⟩, hskip⟩ :=
    scanCandidates_ok_some st processed canon (cycles j) _ p hscan
  have hmem : p ∈ list_vod_candidates st (cycles j).fs := by
    rw [hsplit]
    simp
  have hext : suffixLower p.path ∈ st.vodExtensions := by
    unfold list_vod_candidates at hmem
    have := (mem_sortByDesc _ _ p).mp hmem
    simp only [List.mem_filter, decide_eq_true_eq] at this
    exact this.2
  refine ⟨hext, hsize, hseen, j, hj, hage, hstable, ?_, l1, l2, hsplit, hskip⟩
  unfold list_vod_candidates
  exact sorted_sortByDesc _ _

/-- Settings for the C4 witness: tiny thresholds so a small concrete
file qualifies. -/
def stC4 : Settings :=
  ⟨"/hook", "", "/w", [".ts"], 20, 10, 0, "", "", 300, 15, true⟩

/-- A single-cycle observation for the C4 witness: one old, stable file. -/
def cycC4 : PollCycle :=
  ⟨100, [⟨"/w/a.ts", 1, 0⟩], fun _ => .ok 1, fun _ => .ok 1⟩

/-- C4 witness: on a concrete run the locator returns the eligible stable
file, and the claimed guarantees evaluate on it. -/
theorem claimC4_witness :
    suffixLower "/w/a.ts" ∈ stC4.vodExtensions ∧
    minBytes stC4 ≤ 1 ∧
    id "/w/a.ts" ∉ ([] : List String) :=
  let r := claimC4 stC4 [] id (fun _ => cycC4) 1 0 ⟨"/w/a.ts", 1, 0⟩ rfl
  ⟨r.1, r.2.1, r.2.2.1⟩
